import Mathlib

set_option maxHeartbeats 1000000

/-!
Verification development for the traceroute race demo
(`traceroute-visualizer/app.py`).  The data model and the operations below
are shallow embeddings of the corresponding parts of `app.py`: the
leaderboard store (the `race_results` list and its mutations inside
`register`, `scoreboard` and `event_stream`), the traceroute output parser
(`run_traceroute`), the distance function (`haversine_distance`), and the
per-request SSE generator (`event_stream`).  Coordinates, distances and
durations are modeled as rationals (payload values the store never computes
with), timestamps as naturals, and the real-valued haversine formula over ℝ.
-/

/-- Record mirroring the `RaceResult` dataclass of app.py (lines 47-61). -/
structure RaceResult where
  player_id : String
  player_name : String
  challenge_id : String
  finish_time : Nat
  rank : Nat
  points : Nat
  final_hop_lat : ℚ
  final_hop_lon : ℚ
  final_hop_city : String
  final_hop_country : String
  total_hops : Nat
  trace_duration_seconds : ℚ
  distance_from_target_km : ℚ
deriving DecidableEq

/-- Record mirroring the `Challenge` dataclass of app.py (lines 35-45). -/
structure Challenge where
  id : String
  city_name : String
  city_lat : ℚ
  city_lon : ℚ
  radius_km : ℚ
  target_host : String
  start_time : Nat
  end_time : Option Nat
  created_at : Nat
deriving DecidableEq

/-- Geolocation payload as produced by `geo_ip` (app.py lines 239-258):
latitude, longitude, city and country of a hop. -/
structure Geo where
  lat : ℚ
  lon : ℚ
  city : String
  country : String
deriving DecidableEq

/-- `calculate_points` (app.py lines 335-337): `max(0, 10 - (rank - 1))`,
with the subtraction carried out over the integers as in Python. -/
def calculate_points (rank : Nat) : Nat :=
  (max 0 (10 - ((rank : Int) - 1))).toNat

/-- The membership test of `register` (app.py line 436): does a record for
this (participant, challenge) pair exist, placeholder or finalized. -/
def pairMatch (pid cid : String) (r : RaceResult) : Bool :=
  r.player_id == pid && r.challenge_id == cid

/-- The placeholder search of `event_stream` (app.py lines 901-904 and
1002-1003): a record for this (participant, challenge) pair whose points
are zero. -/
def isPlaceholderFor (pid cid : String) (r : RaceResult) : Bool :=
  r.player_id == pid && r.challenge_id == cid && r.points == 0

/-- The completed-race test of `event_stream` (app.py line 895): a record
of this challenge with positive points. -/
def completedFor (cid : String) (r : RaceResult) : Bool :=
  r.challenge_id == cid && decide (0 < r.points)

/-- The completed-race count of `event_stream` (app.py line 895): records of
this challenge with positive points. -/
def countCompleted (results : List RaceResult) (cid : String) : Nat :=
  (results.filter (completedFor cid)).length

/-- Replace the first element satisfying `p` by `a`, as the index search plus
in-place assignment of app.py lines 899-931 and 1001-1031 does; `none` when
no element matches. -/
def replaceFirst (p : RaceResult → Bool) (a : RaceResult) :
    List RaceResult → Option (List RaceResult)
  | [] => none
  | r :: rs =>
    if p r then some (a :: rs)
    else (replaceFirst p a rs).map (fun l => r :: l)

/-- The finalized record built on a successful arrival (app.py lines
908-922). -/
def mkSuccessResult (pid pname cid : String) (rank : Nat) (g : Geo)
    (hops : Nat) (dur dist : ℚ) (now : Nat) : RaceResult :=
  { player_id := pid
    player_name := pname
    challenge_id := cid
    finish_time := now
    rank := rank
    points := calculate_points rank
    final_hop_lat := g.lat
    final_hop_lon := g.lon
    final_hop_city := g.city
    final_hop_country := g.country
    total_hops := hops
    trace_duration_seconds := dur
    distance_from_target_km := dist }

/-- The RACE_SUCCESS commit of `event_stream` (app.py lines 893-932): compute
the rank from the completed count, build the finalized record, replace the
pair's placeholder if one exists, else append.  Returns the new store and
the committed record. -/
def finalize_success (results : List RaceResult) (pid pname cid : String)
    (g : Geo) (hops : Nat) (dur dist : ℚ) (now : Nat) :
    List RaceResult × RaceResult :=
  let rank := countCompleted results cid + 1
  let result := mkSuccessResult pid pname cid rank g hops dur dist now
  match replaceFirst (isPlaceholderFor pid cid) result results with
  | some l => (l, result)
  | none => (results ++ [result], result)

/-- The record a failed arrival writes over the placeholder (app.py lines
1005-1019): sentinel rank 999, zero points, fresh attempt metadata. -/
def failureResult (pid pname cid : String) (g : Geo) (hops : Nat)
    (dur dist : ℚ) (now : Nat) : RaceResult :=
  { player_id := pid
    player_name := pname
    challenge_id := cid
    finish_time := now
    rank := 999
    points := 0
    final_hop_lat := g.lat
    final_hop_lon := g.lon
    final_hop_city := g.city
    final_hop_country := g.country
    total_hops := hops
    trace_duration_seconds := dur
    distance_from_target_km := dist }

/-- The RACE_FAILURE commit of `event_stream` (app.py lines 1000-1033): the
loop overwrites the first placeholder for the pair with the attempt's data
and breaks; when no placeholder matches, the loop falls through and the
store is left unchanged. -/
def finalize_failure (results : List RaceResult) (pid pname cid : String)
    (g : Geo) (hops : Nat) (dur dist : ℚ) (now : Nat) : List RaceResult :=
  match replaceFirst (isPlaceholderFor pid cid)
      (failureResult pid pname cid g hops dur dist now) results with
  | some l => l
  | none => results

/-- The placeholder record appended at registration time (app.py lines
442-456): sentinel rank 999, zero points, zero geolocation and hop data. -/
def placeholderResult (pid pname cid : String) (now : Nat) : RaceResult :=
  { player_id := pid
    player_name := pname
    challenge_id := cid
    finish_time := now
    rank := 999
    points := 0
    final_hop_lat := 0
    final_hop_lon := 0
    final_hop_city := ""
    final_hop_country := ""
    total_hops := 0
    trace_duration_seconds := 0
    distance_from_target_km := 0 }

/-- The placeholder creation of `register` (app.py lines 432-494): when no
record exists for the (participant, challenge) pair, append a fresh
placeholder; otherwise leave the store alone.  The Bool mirrors whether a
placeholder was newly created (the code broadcasts `player_joined` exactly
then). -/
def ensure_placeholder (results : List RaceResult) (pid pname cid : String)
    (now : Nat) : List RaceResult × Bool :=
  if results.any (pairMatch pid cid) then (results, false)
  else (results ++ [placeholderResult pid pname cid now], true)

/-- N sequential RACE_SUCCESS commits on the same challenge, one per listed
(participant id, display name); returns the final store and the committed
records in commit order. -/
def commitMany (cid : String) (g : Geo) (hops : Nat) (dur dist : ℚ)
    (now : Nat) : List (String × String) → List RaceResult →
    List RaceResult × List RaceResult
  | [], results => (results, [])
  | p :: ps, results =>
    let fr := finalize_success results p.1 p.2 cid g hops dur dist now
    let rest := commitMany cid g hops dur dist now ps fr.1
    (rest.1, fr.2 :: rest.2)

/-- The per-entry status tag the scoreboard route attaches (app.py line
601). -/
inductive EntryStatus where
  | completed
  | waiting
deriving DecidableEq

/-- Sort key of the completed block (app.py line 589): ascending rank. -/
def rankLe (a b : RaceResult) : Prop := a.rank ≤ b.rank

/-- Sort key of the waiting block (app.py line 590): participant name. -/
def nameLe (a b : RaceResult) : Prop := a.player_name ≤ b.player_name

instance : DecidableRel rankLe := fun a b =>
  inferInstanceAs (Decidable (a.rank ≤ b.rank))

instance : DecidableRel nameLe := fun a b =>
  inferInstanceAs (Decidable (a.player_name ≤ b.player_name))

instance : IsTotal RaceResult rankLe := ⟨fun a b => Nat.le_total a.rank b.rank⟩

instance : IsTrans RaceResult rankLe := ⟨fun _ _ _ hab hbc => Nat.le_trans hab hbc⟩

instance : IsTotal RaceResult nameLe := ⟨fun a b => le_total a.player_name b.player_name⟩

instance : IsTrans RaceResult nameLe := ⟨fun _ _ _ hab hbc => le_trans hab hbc⟩

/-- The scoreboard query (app.py lines 580-602): filter the challenge's
records, split into completed (points > 0) and placeholder (points == 0)
blocks, sort the completed block by rank and the waiting block by name,
concatenate, and tag each entry `completed` or `waiting`. -/
def leaderboard_for (results : List RaceResult) (cid : String) :
    List (RaceResult × EntryStatus) :=
  let challenge_results := results.filter (fun r => r.challenge_id == cid)
  let completed_races := challenge_results.filter (fun r => decide (0 < r.points))
  let placeholder_entries := challenge_results.filter (fun r => r.points == 0)
  let sortedC := List.insertionSort rankLe completed_races
  let sortedP := List.insertionSort nameLe placeholder_entries
  (sortedC ++ sortedP).map (fun r =>
    (r, if 0 < r.points then EntryStatus.completed else EntryStatus.waiting))

/-- The presentation order the scoreboard promises: completed entries first
in ascending rank, then waiting entries in name order. -/
def presentLe (a b : RaceResult) : Prop :=
  (0 < a.points ∧ 0 < b.points ∧ a.rank ≤ b.rank)
  ∨ (0 < a.points ∧ b.points = 0)
  ∨ (a.points = 0 ∧ b.points = 0 ∧ a.player_name ≤ b.player_name)

/-- Python's regex whitespace class over the ASCII output of the probing
tool. -/
def isSpaceCh (c : Char) : Bool :=
  c = ' ' || c = '\t' || c = '\n' || c = '\r' || c = '\x0b' || c = '\x0c'

/-- `line.strip()`: discard whitespace at both ends. -/
def stripL (cs : List Char) : List Char :=
  ((cs.dropWhile isSpaceCh).reverse.dropWhile isSpaceCh).reverse

/-- `startswith` on character lists. -/
def startsWithL (pre cs : List Char) : Bool :=
  decide (cs.take pre.length = pre)

/-- Substring containment, as Python's `in` on strings. -/
def containsSub (pat : List Char) (cs : List Char) : Bool :=
  cs.tails.any (fun t => startsWithL pat t)

/-- One to three digits at the head of the input (the `\d{1,3}` piece of
`IPV4_RE`, app.py line 187), taking exactly `k` characters. -/
def octAt (cs : List Char) (k : Nat) : Option (List Char × List Char) :=
  let ds := cs.take k
  if ds.length = k && ds.all Char.isDigit then some (ds, cs.drop k) else none

/-- A literal dot. -/
def dotAt : List Char → Option (List Char)
  | '.' :: cs => some cs
  | _ => none

/-- Match of `IPV4_RE` = `(?:\d{1,3}\.){3}\d{1,3}` anchored at the head of
the input, greedy with backtracking exactly as the regex engine: each octet
tries three digits first, then two, then one. -/
def ipv4At (cs : List Char) : Option (List Char) :=
  [3, 2, 1].findSome? fun k1 =>
    (octAt cs k1).bind fun d1 =>
      (dotAt d1.2).bind fun r1 =>
        [3, 2, 1].findSome? fun k2 =>
          (octAt r1 k2).bind fun d2 =>
            (dotAt d2.2).bind fun r2 =>
              [3, 2, 1].findSome? fun k3 =>
                (octAt r2 k3).bind fun d3 =>
                  (dotAt d3.2).bind fun r3 =>
                    [3, 2, 1].findSome? fun k4 =>
                      (octAt r3 k4).map fun d4 =>
                        d1.1 ++ '.' :: d2.1 ++ '.' :: d3.1 ++ '.' :: d4.1

/-- `IPV4_RE.search`: the leftmost match of the IPv4 pattern. -/
def ipv4SearchL : List Char → Option (List Char)
  | [] => none
  | c :: cs =>
    match ipv4At (c :: cs) with
    | some m => some m
    | none => ipv4SearchL cs

/-- `re.search(r"\s\*\s\*\s\*", line)` (app.py line 211): three stars each
preceded by one whitespace character, somewhere in the line. -/
def noAnswerAt : List Char → Bool
  | w1 :: '*' :: w2 :: '*' :: w3 :: '*' :: _ =>
    isSpaceCh w1 && isSpaceCh w2 && isSpaceCh w3
  | _ => false

/-- Search form of `noAnswerAt` over every suffix of the line. -/
def noAnswerSearch (cs : List Char) : Bool :=
  cs.tails.any noAnswerAt

/-- Digits to the number they denote. -/
def natOfDigits (ds : List Char) : Nat :=
  ds.foldl (fun n c => n * 10 + (c.toNat - '0'.toNat)) 0

/-- `re.match(r"\s*(\d+)\s+(.+)", line)` of the Unix branch (app.py line
222): leading whitespace, the hop number, at least one whitespace, and the
non-empty rest of the line.  When everything after the digits is whitespace
the `.+` piece backtracks into the final whitespace character, as the regex
engine does. -/
def hopMatch (line : List Char) : Option (Nat × List Char) :=
  let cs := line.dropWhile isSpaceCh
  let ds := cs.takeWhile Char.isDigit
  if ds.isEmpty then none
  else
    let rest1 := cs.dropWhile Char.isDigit
    let sp := rest1.takeWhile isSpaceCh
    if sp.isEmpty then none
    else
      let rest2 := rest1.dropWhile isSpaceCh
      match rest2 with
      | [] => if 2 ≤ sp.length then some (natOfDigits ds, sp.drop (sp.length - 1)) else none
      | _ => some (natOfDigits ds, rest2)

/-- The Windows branch of `run_traceroute` (app.py lines 196-214), over the
lines the tool produced: banner lines are skipped, an unresolvable target
stops the stream, a line with an IPv4 token or a no-answer marker emits the
next value of the internal hop counter. -/
def tracerouteWinGo : List String → Nat → List (Nat × Option String)
  | [], _ => []
  | line :: rest, hop =>
    let cs := line.data
    let st := stripL cs
    if startsWithL ("Tracing route".data) st || startsWithL ("over a maximum".data) st
        || containsSub ("---".data) cs then
      tracerouteWinGo rest hop
    else if startsWithL ("Unable to resolve".data) st then []
    else
      match ipv4SearchL cs with
      | some m => (hop + 1, some (String.mk m)) :: tracerouteWinGo rest (hop + 1)
      | none =>
        if noAnswerSearch cs then (hop + 1, none) :: tracerouteWinGo rest (hop + 1)
        else tracerouteWinGo rest hop

/-- Windows `tracert` parsing started with a zero hop counter. -/
def tracerouteWin (lines : List String) : List (Nat × Option String) :=
  tracerouteWinGo lines 0

/-- The Unix branch of `run_traceroute` (app.py lines 217-232): every line
matching the hop pattern emits the hop number parsed from the line itself
together with the first IPv4 token of the rest of the line, or no address
when none is present. -/
def tracerouteUnix (lines : List String) : List (Nat × Option String) :=
  lines.filterMap fun line =>
    (hopMatch line.data).map fun m => (m.1, (ipv4SearchL m.2).map String.mk)

/-- `run_traceroute` (app.py lines 189-232) as a function of the platform
switch and of the lines read from the external tool's stdout. -/
def run_traceroute (isWindows : Bool) (lines : List String) :
    List (Nat × Option String) :=
  if isWindows then tracerouteWin lines else tracerouteUnix lines

/-- `math.radians`: degrees to radians. -/
noncomputable def radians (x : ℝ) : ℝ := x * (Real.pi / 180)

open Classical in
/-- `math.atan2(y, x)` as the standard piecewise two-argument arctangent
(the quadrant-aware inverse tangent the Python library computes). -/
noncomputable def atan2 (y x : ℝ) : ℝ :=
  if 0 < x then Real.arctan (y / x)
  else if x < 0 ∧ 0 ≤ y then Real.arctan (y / x) + Real.pi
  else if x < 0 ∧ y < 0 then Real.arctan (y / x) - Real.pi
  else if x = 0 ∧ 0 < y then Real.pi / 2
  else if x = 0 ∧ y < 0 then -(Real.pi / 2)
  else 0

/-- `haversine_distance` (app.py lines 278-290): great-circle distance on a
sphere of radius 6371 km, via the haversine formula. -/
noncomputable def haversine_distance (lat1 lon1 lat2 lon2 : ℝ) : ℝ :=
  let R : ℝ := 6371
  let lat1_rad := radians lat1
  let lat2_rad := radians lat2
  let delta_lat := radians (lat2 - lat1)
  let delta_lon := radians (lon2 - lon1)
  let a := Real.sin (delta_lat / 2) ^ 2
    + Real.cos lat1_rad * Real.cos lat2_rad * Real.sin (delta_lon / 2) ^ 2
  let c := 2 * atan2 (Real.sqrt a) (Real.sqrt (1 - a))
  R * c

/-- One element of the probe's hop stream as the generator consumes it:
the hop index and address from `run_traceroute`, and the geolocation
`geo_ip` returned for the address (absent on lookup failure; only looked up
at all when an address is present, app.py lines 822-827). -/
structure StreamHop where
  idx : Nat
  ip : Option String
  geo : Option Geo
deriving DecidableEq

/-- The geolocation the generator records for a hop: the lookup only
happens when the hop has an address (app.py lines 823-828). -/
def hopGeo (h : StreamHop) : Option Geo :=
  match h.ip with
  | some _ => h.geo
  | none => none

/-- `last_hop_geo` at the end of the loop (app.py lines 816-828): the last
successfully geolocated hop. -/
def lastHopGeo (trace : List StreamHop) : Option Geo :=
  (trace.filterMap hopGeo).getLast?

/-- `total_hops` at the end of the loop (app.py lines 817-820): the index
of the last emitted hop, 0 when the stream was empty. -/
def totalHops (trace : List StreamHop) : Nat :=
  ((trace.getLast?).map StreamHop.idx).getD 0

/-- `players.get(player_id)` followed by the `display_name if player else
"Unknown"` fallback (app.py lines 888-891). -/
def lookupName (players : List (String × String)) (pid : String) : String :=
  match players.find? (fun p => p.1 == pid) with
  | some p => p.2
  | none => "Unknown"

/-- The discrete events the generator yields to the requesting client
(app.py lines 806, 821, 983, 1036, 1054, 1070), carrying the payload fields
the claims inspect. -/
inductive Ev where
  | start
  | hop (idx : Nat) (ip : Option String) (geo : Option Geo)
  | race_success (rank points : Nat)
  | race_failed
  | distance_feedback
  | ended
deriving DecidableEq

/-- Inputs of one run of the `event_stream` generator (app.py lines
804-1070): the race-mode decision and session made by the `stream` route,
the hop stream with its geolocations, and fault switches for the fallible
internal steps.  `geoFail` models `haversine_distance` raising (for
instance on a `None` latitude in the geolocation payload); `dbFailSuccess`
models the sqlite write of the RACE_SUCCESS branch raising — that write is
wrapped in try/except (lines 937-970); `dbFailFailure` models the sqlite
write of the RACE_FAILURE branch raising — that write has no handler
(lines 1022-1030). -/
structure StreamCfg where
  is_race : Bool
  player_id : Option String
  players : List (String × String)
  challenge : Option Challenge
  trace : List StreamHop
  geoFail : Bool
  dbFailSuccess : Bool
  dbFailFailure : Bool
deriving DecidableEq

/-- What one generator run produced: the events yielded in order, the
leaderboard list afterwards, whether the session tracker still holds this
player's entry, and whether the generator died on an uncaught exception. -/
structure StreamOut where
  events : List Ev
  results : List RaceResult
  race_entry : Bool
  aborted : Bool
deriving DecidableEq

/-- Session-entry value after the cleanup statement (app.py lines
1065-1068) has run: the entry exists beforehand exactly when the route
activated race mode (lines 768-784), and `active_races.pop` removes it
when `is_race and player_id` holds. -/
def entryAfterCleanup (cfg : StreamCfg) : Bool :=
  cfg.is_race && !(cfg.is_race && cfg.player_id.isSome)

/-- The `event_stream` generator (app.py lines 804-1070) as a function of
its inputs and of an arbitrary distance function standing for
`haversine_distance` on the payload coordinates.  The branch structure
follows the source: the judging block runs when race mode, a player id, a
geolocated final hop and a challenge are all present; inside it the
geofence comparison picks the RACE_SUCCESS or RACE_FAILURE commit;
otherwise a registered player with a geolocated final hop gets distance
feedback.  An uncaught exception ends the generator where it stood: the
events yielded so far are delivered, the cleanup statement and the final
`end` event never run. -/
def event_stream (dist : ℚ → ℚ → ℚ → ℚ → ℚ) (cfg : StreamCfg)
    (results0 : List RaceResult) (dur : ℚ) (now : Nat) : StreamOut :=
  let pre := Ev.start :: cfg.trace.map (fun h => Ev.hop h.idx h.ip (hopGeo h))
  let entry0 := cfg.is_race
  match cfg.player_id, lastHopGeo cfg.trace, cfg.challenge with
  | some pid, some g, some ch =>
    if cfg.is_race then
      if cfg.geoFail then ⟨pre, results0, entry0, true⟩
      else
        let d := dist g.lat g.lon ch.city_lat ch.city_lon
        let pname := lookupName cfg.players pid
        if d ≤ ch.radius_km then
          let fr := finalize_success results0 pid pname ch.id g (totalHops cfg.trace) dur d now
          ⟨pre ++ [Ev.race_success fr.2.rank fr.2.points, Ev.ended],
            fr.1, entryAfterCleanup cfg, false⟩
        else
          match replaceFirst (isPlaceholderFor pid ch.id)
              (failureResult pid pname ch.id g (totalHops cfg.trace) dur d now) results0 with
          | some results1 =>
            if cfg.dbFailFailure then ⟨pre, results1, entry0, true⟩
            else ⟨pre ++ [Ev.race_failed, Ev.ended], results1, entryAfterCleanup cfg, false⟩
          | none => ⟨pre ++ [Ev.race_failed, Ev.ended], results0, entryAfterCleanup cfg, false⟩
    else
      if cfg.players.any (fun p => p.1 == pid) then
        if cfg.geoFail then ⟨pre, results0, entry0, true⟩
        else ⟨pre ++ [Ev.distance_feedback, Ev.ended], results0, entryAfterCleanup cfg, false⟩
      else ⟨pre ++ [Ev.ended], results0, entryAfterCleanup cfg, false⟩
  | _, _, _ => ⟨pre ++ [Ev.ended], results0, entryAfterCleanup cfg, false⟩

/-- Session-tracker state once the response stream is over, with the
consumer's behaviour made explicit: `closeAfter = some n` means the client
disconnected after receiving `n` events, upon which the server closes the
generator at its current yield — code after that yield, the session
cleanup included, never runs, so the entry survives whenever any event was
still undelivered. -/
def race_entry_after (cfg : StreamCfg) (out : StreamOut)
    (closeAfter : Option Nat) : Bool :=
  match closeAfter with
  | none => out.race_entry
  | some n => if out.events.length ≤ n then out.race_entry else cfg.is_race

/-!  ### Helper lemmas about the store operations  -/

theorem isPlaceholderFor_points {pid cid : String} {r : RaceResult}
    (h : isPlaceholderFor pid cid r = true) : r.points = 0 := by
  simp only [isPlaceholderFor, Bool.and_eq_true, beq_iff_eq] at h
  exact h.2

theorem isPlaceholderFor_pair {pid cid : String} {r : RaceResult}
    (h : isPlaceholderFor pid cid r = true) :
    r.player_id = pid ∧ r.challenge_id = cid := by
  simp only [isPlaceholderFor, Bool.and_eq_true, beq_iff_eq] at h
  exact h.1

theorem replaceFirst_eq_none {p : RaceResult → Bool} {a : RaceResult} :
    ∀ {l : List RaceResult}, (∀ r ∈ l, p r = false) → replaceFirst p a l = none := by
  intro l
  induction l with
  | nil => intro _; rfl
  | cons r rs ih =>
    intro h
    simp only [replaceFirst]
    rw [h r (List.mem_cons_self r rs)]
    simp only [Bool.false_eq_true, if_false]
    rw [ih (fun x hx => h x (List.mem_cons_of_mem r hx))]
    rfl

theorem replaceFirst_append_cons {p : RaceResult → Bool} {a : RaceResult} :
    ∀ (l1 : List RaceResult) (r : RaceResult) (l2 : List RaceResult),
      (∀ x ∈ l1, p x = false) → p r = true →
      replaceFirst p a (l1 ++ r :: l2) = some (l1 ++ a :: l2) := by
  intro l1
  induction l1 with
  | nil =>
    intro r l2 _ hr
    simp only [List.nil_append, replaceFirst, hr, if_true]
  | cons x xs ih =>
    intro r l2 hall hr
    have hx : p x = false := hall x (List.mem_cons_self x xs)
    simp only [List.cons_append, replaceFirst, hx, Bool.false_eq_true, if_false,
      List.append_eq]
    rw [ih r l2 (fun y hy => hall y (List.mem_cons_of_mem x hy)) hr]
    rfl

theorem countCompleted_append (l1 l2 : List RaceResult) (cid : String) :
    countCompleted (l1 ++ l2) cid = countCompleted l1 cid + countCompleted l2 cid := by
  simp [countCompleted, List.filter_append]

theorem countCompleted_cons (r : RaceResult) (l : List RaceResult) (cid : String) :
    countCompleted (r :: l) cid
      = (if completedFor cid r then 1 else 0) + countCompleted l cid := by
  simp only [countCompleted, List.filter_cons]
  split
  · simp [List.length_cons]; omega
  · simp

theorem completedFor_of_placeholder {pid cid : String} {r : RaceResult}
    (h : isPlaceholderFor pid cid r = true) (cid' : String) :
    completedFor cid' r = false := by
  have hp := isPlaceholderFor_points h
  simp [completedFor, hp]

theorem replaceFirst_countCompleted {pid cid : String} {a : RaceResult} (cid' : String) :
    ∀ {l l' : List RaceResult},
      replaceFirst (isPlaceholderFor pid cid) a l = some l' →
      countCompleted l' cid'
        = countCompleted l cid' + (if completedFor cid' a then 1 else 0) := by
  intro l
  induction l with
  | nil => intro l' h; exact absurd h (by simp [replaceFirst])
  | cons r rs ih =>
    intro l' h
    simp only [replaceFirst] at h
    by_cases hr : isPlaceholderFor pid cid r = true
    · rw [if_pos hr] at h
      cases h
      rw [countCompleted_cons, countCompleted_cons,
        completedFor_of_placeholder hr cid']
      simp only [Bool.false_eq_true, if_false]
      omega
    · rw [if_neg hr] at h
      rcases Option.map_eq_some'.mp h with ⟨l'', hl'', rfl⟩
      rw [countCompleted_cons, countCompleted_cons, ih hl'']
      omega

theorem calculate_points_pos (c : Nat) : 0 < calculate_points (c + 1) ↔ c < 10 := by
  unfold calculate_points
  push_cast
  omega

theorem finalize_success_countCompleted (results : List RaceResult)
    (pid pname cid : String) (g : Geo) (hops : Nat) (dur dist : ℚ) (now : Nat) :
    countCompleted (finalize_success results pid pname cid g hops dur dist now).1 cid
      = countCompleted results cid
        + (if countCompleted results cid < 10 then 1 else 0) := by
  unfold finalize_success
  have hcf : completedFor cid
      (mkSuccessResult pid pname cid (countCompleted results cid + 1) g hops dur dist now)
      = decide (countCompleted results cid < 10) := by
    simp only [completedFor, mkSuccessResult]
    rw [beq_self_eq_true]
    simp [calculate_points_pos]
  cases hrep : replaceFirst (isPlaceholderFor pid cid)
      (mkSuccessResult pid pname cid (countCompleted results cid + 1) g hops dur dist now)
      results with
  | none =>
    simp only [hrep, countCompleted_append, countCompleted_cons, hcf]
    rw [show countCompleted [] cid = 0 from rfl]
    by_cases h10 : countCompleted results cid < 10
    · simp [h10]
    · simp [h10]
  | some l =>
    simp only [hrep]
    rw [replaceFirst_countCompleted cid hrep, hcf]
    by_cases h10 : countCompleted results cid < 10
    · simp [h10]
    · simp [h10]

theorem finalize_success_snd (results : List RaceResult) (pid pname cid : String)
    (g : Geo) (hops : Nat) (dur dist : ℚ) (now : Nat) :
    (finalize_success results pid pname cid g hops dur dist now).2
      = mkSuccessResult pid pname cid (countCompleted results cid + 1) g hops dur dist now := by
  simp only [finalize_success]
  cases replaceFirst (isPlaceholderFor pid cid)
      (mkSuccessResult pid pname cid (countCompleted results cid + 1) g hops dur dist now)
      results with
  | none => rfl
  | some l => rfl

theorem commitMany_ranks (cid : String) (g : Geo) (hops : Nat) (dur dist : ℚ)
    (now : Nat) :
    ∀ (ps : List (String × String)) (results : List RaceResult),
      countCompleted results cid + ps.length ≤ 11 →
      ((commitMany cid g hops dur dist now ps results).2.map (fun r => r.rank))
        = List.range' (countCompleted results cid + 1) ps.length := by
  intro ps
  induction ps with
  | nil => intro results _; simp [commitMany]
  | cons p ps ih =>
    intro results hlen
    simp only [commitMany, List.map_cons, List.length_cons]
    rw [finalize_success_snd]
    by_cases h10 : countCompleted results cid < 10
    · have hcnt : countCompleted
          (finalize_success results p.1 p.2 cid g hops dur dist now).1 cid
          = countCompleted results cid + 1 := by
        rw [finalize_success_countCompleted, if_pos h10]
      have htail := ih (finalize_success results p.1 p.2 cid g hops dur dist now).1
        (by rw [hcnt]; simp only [List.length_cons] at hlen; omega)
      rw [hcnt] at htail
      rw [htail, List.range'_succ]
      rfl
    · have h11 : countCompleted results cid = 10 ∧ ps.length = 0 := by
        simp only [List.length_cons] at hlen; omega
      rcases h11 with ⟨hc, hn⟩
      have hps : ps = [] := List.length_eq_zero.mp hn
      subst hps
      simp only [commitMany, List.map_nil]
      rw [hc]
      rfl

theorem commitMany_points (cid : String) (g : Geo) (hops : Nat) (dur dist : ℚ)
    (now : Nat) :
    ∀ (ps : List (String × String)) (results : List RaceResult),
      ∀ rec ∈ (commitMany cid g hops dur dist now ps results).2,
        rec.points = calculate_points rec.rank := by
  intro ps
  induction ps with
  | nil => intro results rec h; exact absurd h (by simp [commitMany])
  | cons p ps ih =>
    intro results rec h
    simp only [commitMany, List.mem_cons] at h
    rcases h with h | h
    · subst h
      rw [finalize_success_snd]
      rfl
    · exact ih (finalize_success results p.1 p.2 cid g hops dur dist now).1 rec h

/-- C1 (amended): starting from a store with no finalized record for the
challenge, N sequential RACE_SUCCESS commits for N distinct participants
(N at most 11) produce records whose ranks are exactly 1, 2, ..., N in
commit order, each with `points = max(0, 10 - (rank - 1))`.  Beyond the
eleventh commit the claim fails, because an eleventh-or-later record gets
zero points and is therefore not counted by later rank computations (see
the counterexample). -/
theorem finalize_success_sequential_ranks (results0 : List RaceResult)
    (cid : String) (g : Geo) (hops : Nat) (dur dist : ℚ) (now : Nat)
    (ps : List (String × String))
    (hnofin : ∀ r ∈ results0, r.challenge_id = cid → r.points = 0)
    (hdistinct : (ps.map Prod.fst).Nodup)
    (hlen : ps.length ≤ 11) :
    ((commitMany cid g hops dur dist now ps results0).2.map (fun r => r.rank))
      = List.range' 1 ps.length
    ∧ ∀ rec ∈ (commitMany cid g hops dur dist now ps results0).2,
        rec.points = calculate_points rec.rank := by
  have hc0 : countCompleted results0 cid = 0 := by
    simp only [countCompleted, List.length_eq_zero, List.filter_eq_nil_iff]
    intro r hr
    simp only [completedFor, Bool.and_eq_true, beq_iff_eq, decide_eq_true_eq, not_and]
    intro hcid
    rw [hnofin r hr hcid]
    omega
  constructor
  · have h := commitMany_ranks cid g hops dur dist now ps results0 (by omega)
    rw [hc0] at h
    exact h
  · exact commitMany_points cid g hops dur dist now ps results0

/-- A shared demo geolocation payload. -/
def gTokyo : Geo := { lat := 35, lon := 139, city := "Tokyo", country := "Japan" }

/-- Twelve distinct participants. -/
def ps12 : List (String × String) :=
  [("p01", "A"), ("p02", "B"), ("p03", "C"), ("p04", "D"), ("p05", "E"),
   ("p06", "F"), ("p07", "G"), ("p08", "H"), ("p09", "I"), ("p10", "J"),
   ("p11", "K"), ("p12", "L")]

/-- C1 counterexample: twelve sequential RACE_SUCCESS commits for twelve
distinct participants on one challenge, starting from an empty store, give
the ranks 1..10, 11, 11 — rank 11 is assigned twice, so the ranks are not
{1, ..., 12} and are not duplicate-free.  The eleventh record got
`points = max(0, 10 - 10) = 0`, so the completed-race count stayed at 10
for the twelfth commit. -/
theorem finalize_success_rank_duplication_cex :
    ((commitMany "c1" gTokyo 5 1 1 0 ps12 []).2.map (fun r => r.rank))
      = [1, 2, 3, 4, 5, 6, 7, 8, 9, 10, 11, 11]
    ∧ ¬ ((commitMany "c1" gTokyo 5 1 1 0 ps12 []).2.map (fun r => r.rank)).Nodup := by
  constructor
  · decide
  · decide

/-- Three distinct participants. -/
def ps3 : List (String × String) := [("p01", "A"), ("p02", "B"), ("p03", "C")]

/-- Witness for C1's amended theorem at a concrete input: three sequential
commits on the empty store give ranks 1, 2, 3. -/
theorem finalize_success_sequential_ranks_witness :
    ((commitMany "c1" gTokyo 5 1 1 0 ps3 []).2.map (fun r => r.rank))
      = List.range' 1 ps3.length := by
  exact (finalize_success_sequential_ranks [] "c1" gTokyo 5 1 1 0 ps3
    (by intro r hr; exact absurd hr (by simp)) (by decide) (by decide)).1

/-- C2 (amended): a failed arrival overwrites the first placeholder record
for the (participant, challenge) pair in place — the record keeps the
sentinel rank 999 and zero points while its attempt metadata (distance,
hop count, duration, timestamp) is replaced — and when no placeholder
exists for the pair the store is left unchanged: no record is created. -/
theorem finalize_failure_spec (results : List RaceResult)
    (pid pname cid : String) (g : Geo) (hops : Nat) (dur dist : ℚ) (now : Nat) :
    ((∀ r ∈ results, isPlaceholderFor pid cid r = false) →
        finalize_failure results pid pname cid g hops dur dist now = results)
    ∧ (∀ (l1 : List RaceResult) (r : RaceResult) (l2 : List RaceResult),
        results = l1 ++ r :: l2 →
        (∀ x ∈ l1, isPlaceholderFor pid cid x = false) →
        isPlaceholderFor pid cid r = true →
        finalize_failure results pid pname cid g hops dur dist now
          = l1 ++ failureResult pid pname cid g hops dur dist now :: l2)
    ∧ (failureResult pid pname cid g hops dur dist now).rank = 999
    ∧ (failureResult pid pname cid g hops dur dist now).points = 0
    ∧ (failureResult pid pname cid g hops dur dist now).distance_from_target_km = dist
    ∧ (failureResult pid pname cid g hops dur dist now).total_hops = hops
    ∧ (failureResult pid pname cid g hops dur dist now).trace_duration_seconds = dur
    ∧ (failureResult pid pname cid g hops dur dist now).finish_time = now := by
  refine ⟨?_, ?_, rfl, rfl, rfl, rfl, rfl, rfl⟩
  · intro hnone
    unfold finalize_failure
    rw [replaceFirst_eq_none hnone]
  · intro l1 r l2 hsplit hl1 hr
    unfold finalize_failure
    rw [hsplit, replaceFirst_append_cons l1 r l2 hl1 hr]

/-- C2 counterexample: with no placeholder in the store — here the store is
empty — a failed arrival creates nothing: the claim's "if no placeholder
exists, a new record with sentinel rank and zero points ... is created" is
false of the code, whose update loop simply finds no row to overwrite. -/
theorem finalize_failure_no_creation_cex :
    finalize_failure [] "p01" "A" "c1" gTokyo 5 1 500 0 = []
    ∧ (finalize_failure [] "p01" "A" "c1" gTokyo 5 1 500 0).length = 0 := by
  constructor
  · rfl
  · rfl

/-- A concrete placeholder row used by several demonstrations. -/
def ph1 : RaceResult := placeholderResult "p01" "A" "c1" 0

/-- Witness for C2's amended theorem at a concrete input: a store holding
exactly the placeholder of participant p01 gets that row overwritten in
place by the failed attempt's record. -/
theorem finalize_failure_spec_witness :
    finalize_failure [ph1] "p01" "A" "c1" gTokyo 5 1 500 7
      = [failureResult "p01" "A" "c1" gTokyo 5 1 500 7] := by
  exact (finalize_failure_spec [ph1] "p01" "A" "c1" gTokyo 5 1 500 7).2.1
    [] ph1 [] rfl (by intro x hx; exact absurd hx (by simp)) (by decide)

/-- The store invariant of the spec: at most one placeholder record per
(participant, challenge) pair. -/
def AtMostOnePlaceholder (results : List RaceResult) : Prop :=
  ∀ pid cid : String, (results.filter (isPlaceholderFor pid cid)).length ≤ 1

theorem isPlaceholderFor_eq_pairMatch (pid cid : String) (r : RaceResult) :
    isPlaceholderFor pid cid r = (pairMatch pid cid r && (r.points == 0)) := rfl

/-- C8: the registration-time placeholder creation is idempotent — when any
record for the (participant, challenge) pair already exists, the store is
returned unchanged and no row is appended; when none exists, exactly one
fresh placeholder with sentinel rank 999, zero points, zero geolocation
fields and zero hop count is appended; running the operation twice equals
running it once; and it preserves the at-most-one-placeholder-per-pair
invariant. -/
theorem ensure_placeholder_spec (results : List RaceResult)
    (pid pname cid : String) (now : Nat) :
    ((∃ r ∈ results, r.player_id = pid ∧ r.challenge_id = cid) →
        ensure_placeholder results pid pname cid now = (results, false))
    ∧ ((∀ r ∈ results, ¬(r.player_id = pid ∧ r.challenge_id = cid)) →
        ensure_placeholder results pid pname cid now
          = (results ++ [placeholderResult pid pname cid now], true))
    ∧ ensure_placeholder (ensure_placeholder results pid pname cid now).1 pid pname cid now
        = ((ensure_placeholder results pid pname cid now).1, false)
    ∧ (placeholderResult pid pname cid now).rank = 999
    ∧ (placeholderResult pid pname cid now).points = 0
    ∧ (placeholderResult pid pname cid now).final_hop_lat = 0
    ∧ (placeholderResult pid pname cid now).final_hop_lon = 0
    ∧ (placeholderResult pid pname cid now).total_hops = 0
    ∧ (AtMostOnePlaceholder results →
        AtMostOnePlaceholder (ensure_placeholder results pid pname cid now).1) := by
  have hself : pairMatch pid cid (placeholderResult pid pname cid now) = true := by
    simp [pairMatch, placeholderResult]
  refine ⟨?_, ?_, ?_, rfl, rfl, rfl, rfl, rfl, ?_⟩
  · intro hex
    have hany : results.any (pairMatch pid cid) = true := by
      rw [List.any_eq_true]
      rcases hex with ⟨r, hr, h1, h2⟩
      exact ⟨r, hr, by simp [pairMatch, h1, h2]⟩
    simp [ensure_placeholder, hany]
  · intro hnone
    have hany : results.any (pairMatch pid cid) = false := by
      rw [List.any_eq_false]
      intro r hr
      simp only [pairMatch, Bool.and_eq_true, beq_iff_eq]
      exact hnone r hr
    simp [ensure_placeholder, hany]
  · by_cases hany : results.any (pairMatch pid cid) = true
    · simp [ensure_placeholder, hany]
    · have hany' : results.any (pairMatch pid cid) = false := by
        simpa using hany
      have happ : (results ++ [placeholderResult pid pname cid now]).any
          (pairMatch pid cid) = true := by
        rw [List.any_append, hany']
        simp [hself]
      simp [ensure_placeholder, hany', happ]
  · intro hinv
    by_cases hany : results.any (pairMatch pid cid) = true
    · simpa [ensure_placeholder, hany] using hinv
    · have hany' : results.any (pairMatch pid cid) = false := by
        simpa using hany
      have hforall : ∀ r ∈ results, pairMatch pid cid r = false := by
        intro r hr
        have h := List.any_eq_false.mp hany' r hr
        simpa using h
      simp only [ensure_placeholder, hany', Bool.false_eq_true, if_false]
      intro pid' cid'
      rw [List.filter_append, List.length_append]
      by_cases hmatch : isPlaceholderFor pid' cid' (placeholderResult pid pname cid now) = true
      · have hpair := isPlaceholderFor_pair hmatch
        have hpid : pid' = pid := by
          have : (placeholderResult pid pname cid now).player_id = pid := rfl
          rw [this] at hpair
          exact hpair.1.symm
        have hcid : cid' = cid := by
          have : (placeholderResult pid pname cid now).challenge_id = cid := rfl
          rw [this] at hpair
          exact hpair.2.symm
        subst hpid
        subst hcid
        have hfil : results.filter (isPlaceholderFor pid' cid') = [] := by
          rw [List.filter_eq_nil_iff]
          intro r hr
          rw [isPlaceholderFor_eq_pairMatch, hforall r hr]
          simp
        rw [hfil]
        simp [List.filter, hmatch]
      · have hmatch' : isPlaceholderFor pid' cid' (placeholderResult pid pname cid now)
            = false := by simpa using hmatch
        have : ([placeholderResult pid pname cid now].filter
            (isPlaceholderFor pid' cid')).length = 0 := by
          simp [List.filter, hmatch']
        rw [this]
        have := hinv pid' cid'
        omega

/-- C10: when a participant already holds a finalized record (points > 0)
for a challenge and no zero-point record for the pair exists, a further
RACE_SUCCESS commit appends a second, separate record for the same
(participant, challenge) pair — the replacement search matches only
records with points == 0, so the finalized one is not replaced — and the
appended record carries the freshly computed rank
`1 + count(records with points > 0)` and the points derived from it.
Afterwards the pair owns at least two records in the store. -/
theorem finalize_success_no_dedup (results : List RaceResult)
    (pid pname cid : String) (g : Geo) (hops : Nat) (dur dist : ℚ) (now : Nat)
    (hfin : ∃ r0 ∈ results, r0.player_id = pid ∧ r0.challenge_id = cid ∧ 0 < r0.points)
    (hnoph : ∀ r ∈ results, isPlaceholderFor pid cid r = false) :
    (finalize_success results pid pname cid g hops dur dist now).1
      = results ++ [(finalize_success results pid pname cid g hops dur dist now).2]
    ∧ (finalize_success results pid pname cid g hops dur dist now).2.player_id = pid
    ∧ (finalize_success results pid pname cid g hops dur dist now).2.challenge_id = cid
    ∧ (finalize_success results pid pname cid g hops dur dist now).2.rank
        = countCompleted results cid + 1
    ∧ (finalize_success results pid pname cid g hops dur dist now).2.points
        = calculate_points ((finalize_success results pid pname cid g hops dur dist now).2.rank)
    ∧ 2 ≤ (((finalize_success results pid pname cid g hops dur dist now).1).filter
        (pairMatch pid cid)).length := by
  have hnone := replaceFirst_eq_none (a :=
    mkSuccessResult pid pname cid (countCompleted results cid + 1) g hops dur dist now) hnoph
  have hfst : (finalize_success results pid pname cid g hops dur dist now).1
      = results ++ [mkSuccessResult pid pname cid (countCompleted results cid + 1)
          g hops dur dist now] := by
    simp only [finalize_success, hnone]
  have hsnd := finalize_success_snd results pid pname cid g hops dur dist now
  refine ⟨by rw [hfst, hsnd], by rw [hsnd]; rfl, by rw [hsnd]; rfl,
    by rw [hsnd]; rfl, by rw [hsnd]; rfl, ?_⟩
  rw [hfst, List.filter_append, List.length_append]
  have hnew : pairMatch pid cid (mkSuccessResult pid pname cid
      (countCompleted results cid + 1) g hops dur dist now) = true := by
    simp [pairMatch, mkSuccessResult]
  have h1 : ([mkSuccessResult pid pname cid (countCompleted results cid + 1)
      g hops dur dist now].filter (pairMatch pid cid)).length = 1 := by
    simp [List.filter, hnew]
  rcases hfin with ⟨r0, hr0, hp, hc, _⟩
  have hr0m : r0 ∈ results.filter (pairMatch pid cid) :=
    List.mem_filter.mpr ⟨hr0, by simp [pairMatch, hp, hc]⟩
  have h2 : 1 ≤ (results.filter (pairMatch pid cid)).length :=
    List.length_pos_of_mem hr0m
  omega

/-- A finalized record for participant p01 used by the C10 witness. -/
def fin1 : RaceResult := mkSuccessResult "p01" "A" "c1" 1 gTokyo 5 1 1 0

/-- Witness for C10 at a concrete input: with p01 already finalized at rank
1 and no placeholder present, another successful commit appends a second
record for the same pair. -/
theorem finalize_success_no_dedup_witness :
    (finalize_success [fin1] "p01" "A" "c1" gTokyo 6 2 3 9).1
      = [fin1] ++ [(finalize_success [fin1] "p01" "A" "c1" gTokyo 6 2 3 9).2]
    ∧ 2 ≤ (((finalize_success [fin1] "p01" "A" "c1" gTokyo 6 2 3 9).1).filter
        (pairMatch "p01" "c1")).length := by
  have h := finalize_success_no_dedup [fin1] "p01" "A" "c1" gTokyo 6 2 3 9
    ⟨fin1, by simp, by decide, by decide, by decide⟩
    (by intro r hr; simp only [List.mem_singleton] at hr; subst hr; decide)
  exact ⟨h.1, h.2.2.2.2.2⟩

theorem points_beq_zero_eq_not_pos (n : Nat) : (n == 0) = !(decide (0 < n)) := by
  cases n with
  | zero => rfl
  | succ k => simp

/-- C7: the scoreboard query returns exactly the challenge's records — as a
permutation of the filtered store — arranged so that every entry with
positive points precedes every zero-point entry, positive-point entries
are in ascending rank order, zero-point entries are in participant-name
order, and each entry is tagged `completed` exactly when its points are
positive and `waiting` otherwise. -/
theorem leaderboard_for_spec (results : List RaceResult) (cid : String) :
    ((leaderboard_for results cid).map Prod.fst).Perm
        (results.filter (fun r => r.challenge_id == cid))
    ∧ List.Pairwise presentLe ((leaderboard_for results cid).map Prod.fst)
    ∧ (leaderboard_for results cid).all
        (fun e => (e.2 == EntryStatus.completed) == decide (0 < e.1.points)) = true := by
  have hmap : (leaderboard_for results cid).map Prod.fst
      = List.insertionSort rankLe
          ((results.filter (fun r => r.challenge_id == cid)).filter
            (fun r => decide (0 < r.points)))
        ++ List.insertionSort nameLe
          ((results.filter (fun r => r.challenge_id == cid)).filter
            (fun r => r.points == 0)) := by
    simp only [leaderboard_for, List.map_map]
    have hid : (Prod.fst ∘ fun r : RaceResult =>
        (r, if 0 < r.points then EntryStatus.completed else EntryStatus.waiting)) = id := by
      funext r
      rfl
    rw [hid, List.map_id]
  have hmemC : ∀ a ∈ List.insertionSort rankLe
      ((results.filter (fun r => r.challenge_id == cid)).filter
        (fun r => decide (0 < r.points))), 0 < a.points := by
    intro a ha
    have hmem := (List.perm_insertionSort rankLe _).mem_iff.mp ha
    have := (List.mem_filter.mp hmem).2
    exact of_decide_eq_true this
  have hmemP : ∀ a ∈ List.insertionSort nameLe
      ((results.filter (fun r => r.challenge_id == cid)).filter
        (fun r => r.points == 0)), a.points = 0 := by
    intro a ha
    have hmem := (List.perm_insertionSort nameLe _).mem_iff.mp ha
    have := (List.mem_filter.mp hmem).2
    simpa using this
  refine ⟨?_, ?_, ?_⟩
  · rw [hmap]
    have hperm1 := List.perm_insertionSort rankLe
      ((results.filter (fun r => r.challenge_id == cid)).filter
        (fun r => decide (0 < r.points)))
    have hperm2 := List.perm_insertionSort nameLe
      ((results.filter (fun r => r.challenge_id == cid)).filter
        (fun r => r.points == 0))
    refine (hperm1.append hperm2).trans ?_
    have hcongr : (results.filter (fun r => r.challenge_id == cid)).filter
        (fun r => r.points == 0)
        = (results.filter (fun r => r.challenge_id == cid)).filter
          (fun r => !(decide (0 < r.points))) := by
      apply List.filter_congr
      intro r _
      exact points_beq_zero_eq_not_pos r.points
    rw [hcongr]
    exact List.filter_append_perm (fun r : RaceResult => decide (0 < r.points)) _
  · rw [hmap, List.pairwise_append]
    refine ⟨?_, ?_, ?_⟩
    · have hs := List.sorted_insertionSort rankLe
        ((results.filter (fun r => r.challenge_id == cid)).filter
          (fun r => decide (0 < r.points)))
      refine List.Pairwise.imp_of_mem ?_ hs
      intro a b ha hb hr
      exact Or.inl ⟨hmemC a ha, hmemC b hb, hr⟩
    · have hs := List.sorted_insertionSort nameLe
        ((results.filter (fun r => r.challenge_id == cid)).filter
          (fun r => r.points == 0))
      refine List.Pairwise.imp_of_mem ?_ hs
      intro a b ha hb hn
      exact Or.inr (Or.inr ⟨hmemP a ha, hmemP b hb, hn⟩)
    · intro a ha b hb
      exact Or.inr (Or.inl ⟨hmemC a ha, hmemP b hb⟩)
  · rw [List.all_eq_true]
    intro e he
    simp only [leaderboard_for, List.mem_map] at he
    rcases he with ⟨r, _, rfl⟩
    by_cases hp : 0 < r.points
    · simp [hp]
    · simp [hp]

theorem tracerouteWinGo_indices (lines : List String) :
    ∀ hop : Nat, (tracerouteWinGo lines hop).map Prod.fst
      = List.range' (hop + 1) (tracerouteWinGo lines hop).length := by
  induction lines with
  | nil => intro hop; rfl
  | cons line rest ih =>
    intro hop
    simp only [tracerouteWinGo]
    by_cases h1 : (startsWithL ("Tracing route".data) (stripL line.data)
        || startsWithL ("over a maximum".data) (stripL line.data)
        || containsSub ("---".data) line.data) = true
    · rw [if_pos h1]
      exact ih hop
    · rw [if_neg h1]
      by_cases h2 : startsWithL ("Unable to resolve".data) (stripL line.data) = true
      · rw [if_pos h2]
        rfl
      · rw [if_neg h2]
        cases h3 : ipv4SearchL line.data with
        | some m =>
          simp only [List.map_cons, List.length_cons, List.range'_succ]
          rw [ih (hop + 1)]
        | none =>
          by_cases h4 : noAnswerSearch line.data = true
          · rw [if_pos h4]
            simp only [List.map_cons, List.length_cons, List.range'_succ]
            rw [ih (hop + 1)]
          · rw [if_neg h4]
            exact ih hop

/-- C5 (amended): on the Windows branch of `run_traceroute` the hop index
is an internal counter, so for every sequence of tool output lines the
emitted hop indices are exactly 1, 2, ..., k, increasing by exactly 1 per
emitted element — including no-answer elements, which occupy their index
like any other.  On the Unix branch the emitted index is the number parsed
from the tool's own output line, so it starts at 1 and increments by 1
only when the tool's numbering does (see the counterexample). -/
theorem run_traceroute_windows_indices (lines : List String) :
    (run_traceroute true lines).map Prod.fst
      = List.range' 1 (run_traceroute true lines).length := by
  show (tracerouteWinGo lines 0).map Prod.fst
    = List.range' (0 + 1) (tracerouteWinGo lines 0).length
  exact tracerouteWinGo_indices lines 0

/-- C5 counterexample: on the Unix branch the hop index comes from the
line, not from a counter — two well-formed hop lines numbered 1 and 3
yield the indices 1 and 3, violating "increase by exactly 1 per emitted
element". -/
theorem run_traceroute_unix_index_skip_cex :
    (run_traceroute false [" 1  10.0.0.1  1.2 ms", " 3  10.0.0.2  2.0 ms"]).map Prod.fst
      = [1, 3]
    ∧ ((run_traceroute false [" 1  10.0.0.1  1.2 ms", " 3  10.0.0.2  2.0 ms"]).map Prod.fst
      ≠ [1, 2]) := by
  constructor
  · decide
  · decide

/-- C6: the haversine distance of app.py, read over the real numbers, is
symmetric in its two points and zero when the two points coincide: the
latitude and longitude differences enter only through squared sines, and
for equal points the haversine term is 0, giving
`6371 * 2 * atan2(0, 1) = 0`. -/
theorem haversine_distance_symm_and_zero (lat1 lon1 lat2 lon2 : ℝ) :
    haversine_distance lat1 lon1 lat2 lon2 = haversine_distance lat2 lon2 lat1 lon1
    ∧ haversine_distance lat1 lon1 lat1 lon1 = 0 := by
  constructor
  · have hsin : ∀ x y : ℝ, Real.sin (radians (x - y) / 2) ^ 2
        = Real.sin (radians (y - x) / 2) ^ 2 := by
      intro x y
      have h : radians (x - y) / 2 = -(radians (y - x) / 2) := by
        unfold radians
        ring
      rw [h, Real.sin_neg, neg_sq]
    simp only [haversine_distance]
    rw [hsin lat2 lat1, hsin lon2 lon1,
      mul_comm (Real.cos (radians lat1)) (Real.cos (radians lat2))]
  · have h0 : radians 0 = 0 := by
      unfold radians
      ring
    have hat : atan2 0 1 = 0 := by
      unfold atan2
      rw [if_pos (by norm_num : (0:ℝ) < 1)]
      simp [Real.arctan_zero]
    simp only [haversine_distance, sub_self, h0]
    norm_num [Real.sin_zero, Real.sqrt_zero, Real.sqrt_one, hat]

theorem getLast_append_two (l : List Ev) (a b : Ev) :
    (l ++ [a, b]).getLast? = some b := by
  rw [show l ++ [a, b] = (l ++ [a]) ++ [b] by simp]
  exact List.getLast?_concat _

/-- C3 (amended): whenever no internal step raises an uncaught exception —
the distance computation does not raise and the RACE_FAILURE durable write
does not raise — the event sequence the generator yields ends with the
terminal `end` event.  A failure of the RACE_SUCCESS durable write is
caught by the code's try/except and still ends with `end` (the hypothesis
says nothing about `dbFailSuccess`); but an error in the failure-path
durable write or in the distance arithmetic kills the generator before
`end` (see the counterexample). -/
theorem event_stream_ends_with_end (dist : ℚ → ℚ → ℚ → ℚ → ℚ) (cfg : StreamCfg)
    (results0 : List RaceResult) (dur : ℚ) (now : Nat)
    (hg : cfg.geoFail = false) (hdb : cfg.dbFailFailure = false) :
    (event_stream dist cfg results0 dur now).events.getLast? = some Ev.ended := by
  obtain ⟨ir, pidO, pls, chO, tr, gf, dbs, dbf⟩ := cfg
  replace hg : gf = false := hg
  replace hdb : dbf = false := hdb
  subst hg
  subst hdb
  simp only [event_stream, Bool.false_eq_true, if_false]
  split
  · split
    · split
      · exact getLast_append_two _ _ _
      · split
        · exact getLast_append_two _ _ _
        · exact getLast_append_two _ _ _
    · split
      · exact getLast_append_two _ _ _
      · exact List.getLast?_concat _
  · exact List.getLast?_concat _

/-- A demo challenge shared by the stream scenarios. -/
def chDemo : Challenge :=
  { id := "c1", city_name := "Tokyo", city_lat := 35, city_lon := 139,
    radius_km := 100, target_host := "8.8.8.8", start_time := 0,
    end_time := none, created_at := 0 }

/-- A single geolocated hop. -/
def hopDemo : StreamHop := { idx := 1, ip := some "1.2.3.4", geo := some gTokyo }

/-- A constant stand-in for the payload distance function. -/
def distConst (q : ℚ) : ℚ → ℚ → ℚ → ℚ → ℚ := fun _ _ _ _ => q

/-- A race-mode run whose RACE_FAILURE durable write raises. -/
def cfgDbFailFailure : StreamCfg :=
  { is_race := true, player_id := some "p01", players := [("p01", "A")],
    challenge := some chDemo, trace := [hopDemo], geoFail := false,
    dbFailSuccess := false, dbFailFailure := true }

/-- A race-mode run whose RACE_SUCCESS durable write raises. -/
def cfgDbFailSuccess : StreamCfg :=
  { is_race := true, player_id := some "p01", players := [("p01", "A")],
    challenge := some chDemo, trace := [hopDemo], geoFail := false,
    dbFailSuccess := true, dbFailFailure := false }

/-- A race-mode run with no internal faults. -/
def cfgClean : StreamCfg :=
  { is_race := true, player_id := some "p01", players := [("p01", "A")],
    challenge := some chDemo, trace := [hopDemo], geoFail := false,
    dbFailSuccess := false, dbFailFailure := false }

/-- C3 counterexample: a race attempt arriving outside the radius (distance
1000 km against a 100 km radius) with a placeholder present runs the
failure-path durable write, which has no exception handler; when that
write raises, the generator dies after the hop events and the client never
receives an `end` event. -/
theorem event_stream_failure_db_error_drops_end_cex :
    (event_stream (distConst 1000) cfgDbFailFailure [ph1] 1 0).events
      = [Ev.start, Ev.hop 1 (some "1.2.3.4") (some gTokyo)]
    ∧ (event_stream (distConst 1000) cfgDbFailFailure [ph1] 1 0).events.getLast?
      ≠ some Ev.ended
    ∧ (event_stream (distConst 1000) cfgDbFailFailure [ph1] 1 0).aborted = true := by
  refine ⟨by decide, by decide, by decide⟩

/-- Witness for C3's amended theorem at a concrete input: with the
success-path durable write raising (and nothing else), the stream still
ends with `end`. -/
theorem event_stream_ends_with_end_witness :
    (event_stream (distConst 1) cfgDbFailSuccess [] 1 0).events.getLast?
      = some Ev.ended := by
  exact event_stream_ends_with_end (distConst 1) cfgDbFailSuccess [] 1 0 rfl rfl

/-- C4: at the concrete failing input — a successful arrival whose sqlite
write raises — the generator still emits `race_success` with rank 1 and 10
points followed by `end`, does not abort, and commits the record to the
in-memory store only: the durable-write failure was caught, printed and
discarded, so the caller is told the operation succeeded while durability
was lost. -/
theorem race_success_reported_despite_db_write_failure :
    (event_stream (distConst 1) cfgDbFailSuccess [] 1 0).events
      = [Ev.start, Ev.hop 1 (some "1.2.3.4") (some gTokyo),
         Ev.race_success 1 10, Ev.ended]
    ∧ (event_stream (distConst 1) cfgDbFailSuccess [] 1 0).aborted = false
    ∧ (event_stream (distConst 1) cfgDbFailSuccess [] 1 0).results
      = [mkSuccessResult "p01" "A" "c1" 1 gTokyo 1 1 1 0] := by
  refine ⟨by decide, by decide, by decide⟩

/-- C9 (amended): when the client consumes the whole stream and no
internal step raises an uncaught exception, the session tracker holds no
entry for the participant afterwards — the cleanup statement at the end of
the generator removes it.  When the client disconnects mid-stream, or an
uncaught error kills the generator, the cleanup statement is never reached
and the entry survives (see the counterexample): the cleanup is ordinary
straight-line code, not a finally block. -/
theorem event_stream_clears_session (dist : ℚ → ℚ → ℚ → ℚ → ℚ) (cfg : StreamCfg)
    (results0 : List RaceResult) (dur : ℚ) (now : Nat)
    (hpid : cfg.player_id.isSome = true) (hg : cfg.geoFail = false)
    (hdb : cfg.dbFailFailure = false) :
    race_entry_after cfg (event_stream dist cfg results0 dur now) none = false := by
  obtain ⟨ir, pidO, pls, chO, tr, gf, dbs, dbf⟩ := cfg
  replace hpid : pidO.isSome = true := hpid
  replace hg : gf = false := hg
  replace hdb : dbf = false := hdb
  subst hg
  subst hdb
  simp only [race_entry_after, event_stream, entryAfterCleanup,
    Bool.false_eq_true, if_false]
  split
  · split
    · split
      · simp [hpid]
      · split
        · simp [hpid]
        · simp [hpid]
    · split
      · simp [hpid]
      · simp [hpid]
  · simp [hpid]

/-- C9 counterexample: the client disconnects after receiving one event of
a clean race-mode probe; the server closes the generator at its pending
yield, the cleanup statement after the loop never runs, and the session
tracker still holds the participant's entry. -/
theorem orphaned_session_on_disconnect_cex :
    race_entry_after cfgClean (event_stream (distConst 1) cfgClean [] 1 0) (some 1)
      = true
    ∧ 1 < (event_stream (distConst 1) cfgClean [] 1 0).events.length := by
  refine ⟨by decide, by decide⟩

/-- Witness for C9's amended theorem at a concrete input: the same clean
run, fully consumed, leaves no session entry. -/
theorem event_stream_clears_session_witness :
    race_entry_after cfgClean (event_stream (distConst 1) cfgClean [] 1 0) none
      = false := by
  exact event_stream_clears_session (distConst 1) cfgClean [] 1 0 rfl rfl rfl
